import Mathlib

set_option maxRecDepth 100000

/-!
Verification development for the quantum-chemistry-to-knowledge-graph encoder
of plugin-elizaos-compchembridge.

The repository contains two main encoder variants:
* `src/py/parse_gaussian_cclib.py` — `extract_cclib_data` builds a data
  dictionary from a cclib parse result and `generate_rdf_from_cclib` renders
  it to Turtle text by string concatenation (modelled here as a list of
  appended chunks whose join is the output text).
* `src/eliza/agent/py/parse_gaussian_cclib.py` — `generate_rdf_triples`
  renders a cclib data object directly to a list of lines joined by newlines.

Modelling conventions:
* Python floats are modelled as exact rationals (`Rat`).  All values involved
  in the statements below are exactly representable, and the numeric facts at
  stake are far outside double-precision rounding error.
* Core `Rat` arithmetic (`Rat.add` etc.) is `@[irreducible]`, so the exact
  rational operations are expressed through `mkRat` / `Rat.divInt`, which the
  kernel evaluates.
* Python `%.Nf` formatting is modelled by rounding the exact rational to N
  decimal digits (round to nearest; the tie-breaking rule and the final-ulp
  behaviour of binary doubles are unobservable for every value appearing in
  this development).
* `str.replace`, `str.lower`, `str.startswith`, string comparison and
  `os.path.splitext` are re-implemented on `List Char`, since the core
  `String` routines do not reduce in the kernel.
* Optional cclib attributes are modelled as `Option` fields: `none` means the
  attribute is absent or `None` on the parsed object.
* Python exceptions are modelled with `Except String`; an `IndexError` from
  list indexing carries the message "list index out of range".
-/

/-! ## Character and string helpers -/

/-- Python list-of-chars prefix test (`str.startswith` after conversion). -/
def chPre : List Char → List Char → Bool
  | [], _ => true
  | _ :: _, [] => false
  | a :: as, b :: bs => a == b && chPre as bs

/-- Substring occurrence test on character lists. -/
def hasSubCh (pat : List Char) : List Char → Bool
  | [] => pat.isEmpty
  | c :: cs => chPre pat (c :: cs) || hasSubCh pat cs

/-- `hasSub s pat` holds when `pat` occurs as a contiguous substring of `s`. -/
def hasSub (s pat : String) : Bool := hasSubCh pat.data s.data

/-- `str.replace(c, "")` for a single-character pattern: drop every
occurrence of that character.  The source only ever replaces the single
characters `-` and `:` by the empty string. -/
def removeChar (c : Char) (s : String) : String :=
  String.mk (s.data.filter (fun x => x != c))

/-- ASCII lower-casing of one character (Python `str.lower` on ASCII input). -/
def lowerChar (c : Char) : Char :=
  if 'A' ≤ c && c ≤ 'Z' then Char.ofNat (c.toNat + 32) else c

/-- Python `str.lower` (ASCII). -/
def toLowerStr (s : String) : String := String.mk (s.data.map lowerChar)

/-- Python `str.startswith`. -/
def startsWithStr (s p : String) : Bool := chPre p.data s.data

/-- Lexicographic code-point comparison of character lists, as Python compares
strings. -/
def strLtCh : List Char → List Char → Bool
  | [], [] => false
  | [], _ :: _ => true
  | _ :: _, [] => false
  | a :: as, b :: bs => if a < b then true else if b < a then false else strLtCh as bs

/-- Python `<` on strings. -/
def strLt (a b : String) : Bool := strLtCh a.data b.data

/-- Python `str.rstrip(' ;')`: drop trailing spaces and semicolons. -/
def rstripSemiSp (s : String) : String :=
  String.mk ((s.data.reverse.dropWhile (fun c => c == ' ' || c == ';')).reverse)

/-- Replace the last element of a list by `f` of it (the Python idiom
`lines[-1] = f(lines[-1])`). -/
def mutateLast (f : String → String) : List String → List String
  | [] => []
  | [x] => [f x]
  | x :: y :: xs => x :: mutateLast f (y :: xs)

/-- Pad a digit string with leading zeros up to width `d`. -/
def padZeros (s : String) (d : Nat) : String :=
  if s.length < d then String.mk (List.replicate (d - s.length) '0') ++ s else s

/-! ## Exact rational arithmetic that the kernel evaluates -/

/-- Exact rational addition (same value as `Rat.add`, stated through `mkRat`
so that concrete instances evaluate). -/
def rAdd (a b : Rat) : Rat := mkRat (a.num * b.den + b.num * a.den) (a.den * b.den)

/-- Exact rational subtraction. -/
def rSub (a b : Rat) : Rat := mkRat (a.num * b.den - b.num * a.den) (a.den * b.den)

/-- Exact rational multiplication. -/
def rMul (a b : Rat) : Rat := mkRat (a.num * b.num) (a.den * b.den)

/-- Exact rational division. -/
def rDiv (a b : Rat) : Rat := Rat.divInt (a.num * b.den) (b.num * a.den)

/-- The abbreviated eV-per-Hartree factor `27.211` used by
`src/py/parse_gaussian_cclib.py`. -/
def hartreeAbbrev : Rat := mkRat 27211 1000

/-- The full-precision eV-per-Hartree factor `27.211386024367243` used by
`src/eliza/agent/py/parse_gaussian_cclib.py`. -/
def hartreeFull : Rat := mkRat 27211386024367243 1000000000000000

/-- The integer `round(q * 10^d)` (nearest, ties away from the floor side):
the digit stream of Python `%.df` formatting of the exact value `q`. -/
def fmtDigits (q : Rat) (d : Nat) : Int :=
  Rat.floor (mkRat (2 * q.num * ((10 : Int) ^ d) + (q.den : Int)) (2 * q.den))

/-- Python `f"{q:.df}"` fixed-point formatting of the exact value `q`. -/
def fmtRat (q : Rat) (d : Nat) : String :=
  let n : Int := fmtDigits q d
  let sign : String := if n < 0 then "-" else ""
  let m : Nat := n.natAbs
  let ip : Nat := m / 10 ^ d
  let fp : Nat := m % 10 ^ d
  if d = 0 then sign ++ toString ip
  else sign ++ toString ip ++ "." ++ padZeros (toString fp) d

/-- Model of `f"{math-like sqrt:.6f}"`: the double square root rendered with
six decimals, approximated by an integer square root at twelve digits.  (No
claim in this development observes a dipole value.) -/
def fmtSqrt6 (q : Rat) : String :=
  let scaled : Int := Rat.floor (mkRat (q.num * ((10 : Int) ^ (12 : Nat))) q.den)
  fmtRat (mkRat (Nat.sqrt scaled.toNat) 1000000) 6

/-! ## Python list indexing -/

/-- Python `xs[i]` on a list of floats: negative indices count from the end,
and an out-of-range access raises `IndexError: list index out of range`. -/
def pyIdx (xs : List Rat) (i : Int) : Except String Rat :=
  let j : Int := if i < 0 then i + xs.length else i
  if 0 ≤ j then
    match xs.get? j.toNat with
    | some v => .ok v
    | none => .error "list index out of range"
  else .error "list index out of range"

/-! ## Periodic table and molecular formula -/

/-- Element symbols of cclib's `PeriodicTable().element`, 1-indexed; the model
covers atomic numbers 1–20, and treats any other lookup as a failure. -/
def ptSymbols : List String :=
  ["H", "He", "Li", "Be", "B", "C", "N", "O", "F", "Ne",
   "Na", "Mg", "Al", "Si", "P", "S", "Cl", "Ar", "K", "Ca"]

/-- `PeriodicTable().element[int(num)]` (modelled range: 1–20). -/
def ptElement (n : Int) : Except String String :=
  if 1 ≤ n && n ≤ 20 then .ok (((ptSymbols.get? (n.toNat - 1))).getD "")
  else .error "index out of range"

/-- The distinct keys of a `collections.Counter`, in first-occurrence order. -/
def counterKeys (l : List String) : List String :=
  l.foldl (fun acc s => if s ∈ acc then acc else acc ++ [s]) []

/-- `Counter(l).items()`: each distinct key with its multiplicity. -/
def countsOf (l : List String) : List (String × Nat) :=
  (counterKeys l).map (fun k => (k, l.count k))

/-- One insertion step of sorting key/count pairs by key. -/
def insertSym (x : String × Nat) : List (String × Nat) → List (String × Nat)
  | [] => [x]
  | y :: ys => if strLt x.1 y.1 then x :: y :: ys else y :: insertSym x ys

/-- Python `sorted(counter.items())`: sort the pairs by their (unique) string
key. -/
def sortCounts (l : List (String × Nat)) : List (String × Nat) :=
  l.foldr insertSym []

/-- The molecular-formula string of `extract_cclib_data`: element symbols in
ascending order, each followed by its count unless the count is 1. -/
def formulaOf (syms : List String) : String :=
  String.join ((sortCounts (countsOf syms)).map
    (fun p => p.1 ++ (if 1 < p.2 then toString p.2 else "")))

/-! ## src/py/parse_gaussian_cclib.py — `extract_cclib_data` -/

/-- The raw cclib parse result, restricted to the attributes that
`extract_cclib_data` reads and that the Turtle generator consumes.  (The
whitelist also copies `enthalpy`, `entropy`, `freeenergy`, `zpve`,
`temperature`, `pressure`, `rotconsts`, `time`, `transprop`, `coreelectrons`
and `hessian` into the dictionary, but `generate_rdf_from_cclib` never reads
those keys, so they are omitted from the model.) -/
structure ParsedData where
  atomnos : Option (List Int)
  atomcoords : Option (List (List (List Rat)))
  charge : Option Int
  mult : Option Int
  natom : Option Int
  scfenergies : Option (List Rat)
  vibfreqs : Option (List Rat)
  moenergies : Option (List (List Rat))
  homos : Option (List Int)
deriving DecidableEq

/-- One entry of the `homo_lumo_gaps` list built by `extract_cclib_data`. -/
structure GapEntry where
  spin : Nat
  homo_energy_ev : Rat
  lumo_energy_ev : Rat
  gap_ev : Rat
  gap_hartree : Rat
deriving DecidableEq

/-- The data dictionary produced by `extract_cclib_data` (successful case),
restricted to the keys the Turtle generator reads, plus the metadata fields it
uses (`filename`, `parsed_at`, `cclib_version`). -/
structure CclibDict where
  mdFilename : String
  mdParsedAt : String
  mdCclibVersion : String
  natom : Option Int
  charge : Option Int
  mult : Option Int
  scfenergies : Option (List Rat)
  vibfreqs : Option (List Rat)
  atomnos : Option (List Int)
  atomsymbols : Option (List String)
  final_geometry : Option (List (List Rat))
  homo_lumo_gaps : Option (List GapEntry)
  molecular_formula : Option String
deriving DecidableEq

instance exceptDecEq {ε α : Type} [DecidableEq ε] [DecidableEq α] :
    DecidableEq (Except ε α)
  | .ok x, .ok y =>
    match decEq x y with
    | isTrue h => isTrue (by rw [h])
    | isFalse h => isFalse (fun hc => h (Except.ok.inj hc))
  | .error x, .error y =>
    match decEq x y with
    | isTrue h => isTrue (by rw [h])
    | isFalse h => isFalse (fun hc => h (Except.error.inj hc))
  | .ok _, .error _ => isFalse (fun hc => Except.noConfusion hc)
  | .error _, .ok _ => isFalse (fun hc => Except.noConfusion hc)

/-- The HOMO/LUMO loop of `extract_cclib_data`:
`for i, (energies, homo_idx) in enumerate(zip(moenergies, homos))`, guarded by
`len(energies) > homo_idx + 1`, computing the gap with Python list indexing
(which can raise for far-negative indices). -/
def gapLoop : Nat → List (List Rat × Int) → Except String (List GapEntry)
  | _, [] => .ok []
  | i, (es, h) :: rest =>
    if (h + 1 : Int) < (es.length : Int) then do
      let lumo ← pyIdx es (h + 1)
      let homo ← pyIdx es h
      let gap := rSub lumo homo
      let tail ← gapLoop (i + 1) rest
      .ok (⟨i, homo, lumo, gap, rDiv gap hartreeAbbrev⟩ :: tail)
    else gapLoop (i + 1) rest

/-- The body of `extract_cclib_data` after a successful `ccread`, in source
order: attribute whitelist, derived `atomsymbols`, HOMO/LUMO gaps, final
geometry (`atomcoords[-1]`), molecular formula.  Any raised exception
propagates as an error. -/
def extractSteps (p : ParsedData) (filename version now : String) :
    Except String CclibDict := do
  let symsOpt ← (match p.atomnos with
    | some ns => do
        let syms ← ns.mapM ptElement
        pure (some syms)
    | none => pure (none : Option (List String)))
  let gapsOpt ← (match p.moenergies, p.homos with
    | some mes, some hs => do
        let gs ← gapLoop 0 (mes.zip hs)
        pure (if gs.isEmpty then (none : Option (List GapEntry)) else some gs)
    | _, _ => pure (none : Option (List GapEntry)))
  let geoOpt ← (match p.atomcoords with
    | some frames =>
        (match frames.getLast? with
         | some g => pure (some g)
         | none =>
             Except.error "index -1 is out of bounds for axis 0 with size 0")
    | none => pure (none : Option (List (List Rat))))
  let formulaOpt ← (match p.atomnos with
    | some ns => do
        let syms ← ns.mapM ptElement
        pure (some (formulaOf syms))
    | none => pure (none : Option String))
  pure ⟨filename, now, version, p.natom, p.charge, p.mult, p.scfenergies,
        p.vibfreqs, p.atomnos, symsOpt, geoOpt, gapsOpt, formulaOpt⟩

/-- `extract_cclib_data(filepath)`.  `parsed` is the result of `ccread`
(`none` models a `None` return), `now` is the injected
`datetime.now().isoformat()` and `version` the ambient `cclib.__version__`.
The single function-wide `try/except` turns any internal exception into the
error record `{"error": f"Error parsing {filepath}: {e}"}`. -/
def extract_cclib_data (parsed : Option ParsedData)
    (filepath filename version now : String) : Except String CclibDict :=
  match parsed with
  | none => .error ("Failed to parse file: " ++ filepath)
  | some p =>
    match extractSteps p filename version now with
    | .ok d => .ok d
    | .error e => .error ("Error parsing " ++ filepath ++ ": " ++ e)

/-! ## src/py/parse_gaussian_cclib.py — base-name sanitisation -/

/-- Index of the last occurrence of `c` in `l`, if any. -/
def lastIdxOf (c : Char) (l : List Char) : Option Nat :=
  match l.reverse.findIdx? (fun x => x == c) with
  | none => none
  | some j => some (l.length - 1 - j)

/-- `os.path.splitext(filename)[0]` for a plain file name: cut at the last
dot, except that leading dots never start an extension. -/
def splitextBase (s : String) : String :=
  let cs := s.data
  let lead := (cs.takeWhile (fun x => x == '.')).length
  let rest := cs.drop lead
  match lastIdxOf '.' rest with
  | none => s
  | some i => String.mk (cs.take (lead + i))

/-- The anchored case-insensitive prefix strip
`re.sub(r'^(calc_|calculation_|comp_|gaussian_|opt_|freq_)', '', s, flags=I)`:
at most one leading tag is removed, tags tried in alternation order. -/
def stripCalcTag (s : String) : String :=
  let low := toLowerStr s
  let tags := ["calc_", "calculation_", "comp_", "gaussian_", "opt_", "freq_"]
  match tags.find? (fun t => startsWithStr low t) with
  | some t => String.mk (s.data.drop t.length)
  | none => s

/-- `re.sub(r'[^a-zA-Z0-9_-]', '_', s)`. -/
def sanitizeChars (s : String) : String :=
  String.mk (s.data.map (fun c =>
    if c.isAlphanum || c == '_' || c == '-' then c else '_'))

/-- The cleaned base name a calculation is identified by. -/
def mkBaseName (filename : String) : String :=
  sanitizeChars (stripCalcTag (splitextBase filename))

/-! ## src/py/parse_gaussian_cclib.py — `generate_rdf_from_cclib` -/

/-- The f-string header block of `generate_rdf_from_cclib` (prefix
declarations, comments, and the unconditional calculation subject). -/
def mkSrcHeader (base filename parsedAt version : String) : String :=
  "@prefix cheminf: <http://semanticscience.org/resource/> .\n" ++
  "@prefix dcterms: <http://purl.org/dc/terms/> .\n" ++
  "@prefix ex: <https://example.org/gaussian#" ++ base ++ "/> .\n" ++
  "@prefix ontocompchem: <http://www.theworldavatar.com/ontology/ontocompchem/> .\n" ++
  "@prefix prov: <http://www.w3.org/ns/prov#> .\n" ++
  "@prefix rdfs: <http://www.w3.org/2000/01/rdf-schema#> .\n" ++
  "@prefix xsd: <http://www.w3.org/2001/XMLSchema#> .\n" ++
  "@prefix units: <http://www.ontology-of-units-of-measure.org/resource/om-2/> .\n\n" ++
  "# Data for molecule: " ++ base ++ "\n" ++
  "# Source file: " ++ filename ++ "\n" ++
  "# Generated: " ++ parsedAt ++ "\n\n" ++
  "ex:" ++ base ++ " " ++ "a ontocompchem:QuantumCalculation ;" ++ "\n" ++
  "    " ++ "dcterms:source \"" ++ filename ++ "\"" ++ " ;\n" ++
  "    " ++ "prov:generatedAtTime" ++ " \"" ++ parsedAt ++ "\"^^xsd:dateTime ;\n" ++
  "    ontocompchem:hasParser \"cclib\" ;\n" ++
  "    ontocompchem:hasParserVersion \"" ++ version ++ "\" .\n\n"

/-- Emit a single chunk when an optional value is present. -/
def optChunk {α : Type} (o : Option α) (f : α → String) : List String :=
  match o with
  | some a => [f a]
  | none => []

/-- The SCF-energy section: for each energy, a typed subject, the
Hartree-converted value (`/ 27.211`), the eV value, and the ownership link. -/
def srcScf (base : String) (es : List Rat) : List String :=
  es.enum.flatMap (fun p =>
    ["ex:" ++ base ++ "/scf_" ++ toString (p.1 + 1) ++ " a ontocompchem:SCFEnergy ;\n",
     "    ontocompchem:hasValue " ++ fmtRat (rDiv p.2 hartreeAbbrev) 8 ++ " ;\n",
     "    ontocompchem:hasValueEV " ++ fmtRat p.2 6 ++ " ;\n",
     "    ontocompchem:belongsTo ex:" ++ base ++ " .\n"])

/-- The HOMO-LUMO gap section (one block per `homo_lumo_gaps` entry). -/
def srcGaps (base : String) (gs : List GapEntry) : List String :=
  gs.enum.flatMap (fun p =>
    ["ex:" ++ base ++ "/gap_" ++ toString (p.1 + 1) ++ " a ontocompchem:HOMOLUMOGap ;\n",
     "    ontocompchem:hasHOMOEnergy " ++ fmtRat p.2.homo_energy_ev 6 ++ " ;\n",
     "    ontocompchem:hasLUMOEnergy " ++ fmtRat p.2.lumo_energy_ev 6 ++ " ;\n",
     "    ontocompchem:hasGapValue " ++ fmtRat p.2.gap_ev 6 ++ " ;\n",
     "    ontocompchem:belongsTo ex:" ++ base ++ " .\n"])

/-- The vibrational-frequency section. -/
def srcVib (base : String) (fs : List Rat) : List String :=
  fs.enum.flatMap (fun p =>
    ["ex:" ++ base ++ "/freq_" ++ toString (p.1 + 1) ++ " a ontocompchem:VibrationalFrequency ;\n",
     "    ontocompchem:hasValue " ++ fmtRat p.2 2 ++ " ;\n",
     "    ontocompchem:belongsTo ex:" ++ base ++ " .\n"])

/-- The per-atom element label:
`data.get('atomsymbols', [str(n)])[i] if i < len(data.get('atomsymbols', [])) else str(n)`. -/
def srcAtomSymbol (symsOpt : Option (List String)) (i : Nat) (anum : Int) : String :=
  let syms := symsOpt.getD []
  if i < syms.length then (syms.get? i).getD "" else toString anum

/-- The atom section: `zip(atomnos, final_geometry)` with a seven-chunk block
per atom. -/
def srcAtoms (base : String) (symsOpt : Option (List String))
    (ns : List Int) (geo : List (List Rat)) : List String :=
  (ns.zip geo).enum.flatMap (fun p =>
    let elem := srcAtomSymbol symsOpt p.1 p.2.1
    let coords := p.2.2
    ["ex:" ++ base ++ "/atom_" ++ toString (p.1 + 1) ++ " a cheminf:Atom ;\n",
     "    cheminf:hasAtomicNumber " ++ toString p.2.1 ++ " ;\n",
     "    cheminf:hasElement \"" ++ elem ++ "\" ;\n",
     "    cheminf:hasXCoordinate " ++ fmtRat ((coords.get? 0).getD (mkRat 0 1)) 6 ++ " ;\n",
     "    cheminf:hasYCoordinate " ++ fmtRat ((coords.get? 1).getD (mkRat 0 1)) 6 ++ " ;\n",
     "    cheminf:hasZCoordinate " ++ fmtRat ((coords.get? 2).getD (mkRat 0 1)) 6 ++ " ;\n",
     "    cheminf:belongsTo ex:" ++ base ++ " .\n"])

/-- The chunks successively appended to `rdf_content` by
`generate_rdf_from_cclib`; the produced text is their join.  An error record
short-circuits to the single error comment. -/
def srcChunks (r : Except String CclibDict) : List String :=
  match r with
  | .error e => ["# Error: " ++ e ++ "\n"]
  | .ok d =>
    let base := mkBaseName d.mdFilename
    [mkSrcHeader base d.mdFilename d.mdParsedAt d.mdCclibVersion]
    ++ optChunk d.natom (fun n =>
         "ex:" ++ base ++ " ontocompchem:hasNAtoms " ++ toString n ++ " .\n")
    ++ optChunk d.charge (fun c =>
         "ex:" ++ base ++ " ontocompchem:hasCharge " ++ toString c ++ " .\n")
    ++ optChunk d.mult (fun mu =>
         "ex:" ++ base ++ " ontocompchem:hasMultiplicity " ++ toString mu ++ " .\n")
    ++ optChunk d.molecular_formula (fun f =>
         "ex:" ++ base ++ " ontocompchem:hasMolecularFormula \"" ++ f ++ "\" .\n")
    ++ (match d.scfenergies with
        | some es => srcScf base es
        | none => [])
    ++ (match d.homo_lumo_gaps with
        | some gs => srcGaps base gs
        | none => [])
    ++ (match d.vibfreqs with
        | some fs => srcVib base fs
        | none => [])
    ++ (match d.atomnos, d.final_geometry with
        | some ns, some geo => srcAtoms base d.atomsymbols ns geo
        | _, _ => [])
    ++ ["\n"]

/-- `generate_rdf_from_cclib(data, metadata=None)`.  The `metadata` parameter
appears in the signature but is never read by the function body. -/
def generate_rdf_from_cclib (r : Except String CclibDict)
    (metadata : Option (List (String × String))) : String :=
  String.join (srcChunks r)

/-! ## src/eliza/agent/py/parse_gaussian_cclib.py — `generate_rdf_triples` -/

/-- The metadata record the agent CLI passes to `generate_rdf_triples`
(`metadata["timestamp"]` and `metadata["filename"]`). -/
structure AgentMeta where
  timestamp : String
  filename : String
deriving DecidableEq

/-- The cclib data object as read by `generate_rdf_triples` (every attribute
access is guarded by `hasattr`/`is not None`, modelled by `Option`).  The
per-element `homo_idx is not None` guard of the source is vacuous for cclib's
integer arrays and is not modelled. -/
structure AgentData where
  natom : Option Int
  charge : Option Int
  mult : Option Int
  atommasses : Option (List Rat)
  atomcoords : Option (List (List (List Rat)))
  atomnos : Option (List Int)
  scfenergies : Option (List Rat)
  homos : Option (List Int)
  moenergies : Option (List (List Rat))
  vibfreqs : Option (List Rat)
  vibirs : Option (List Rat)
  vibramans : Option (List Rat)
  enthalpy : Option Rat
  freeenergy : Option Rat
  entropy : Option Rat
  zpve : Option Rat
  etenergies : Option (List Rat)
  etoscs : Option (List Rat)
  atomcharges : Option (List (String × List Rat))
  moments : Option (List (List Rat))
  nbasis : Option Int
  optdone : Option Bool
  polarizabilities : Option (List (List (List Rat)))
deriving DecidableEq

/-- The ambient `cclib.__version__` string (constant within a run). -/
def cclibVersion : String := "1.8"

/-- `calc_id = f"calc_{metadata['timestamp'].replace('-', '').replace(':', '')}"`. -/
def calcIdOf (m : AgentMeta) : String :=
  "calc_" ++ removeChar ':' (removeChar '-' m.timestamp)

/-- The `@prefix` block of `generate_rdf_triples` followed by the blank line
(dictionary insertion order). -/
def agentPreamble : List String :=
  ["@prefix cheminf: <http://semanticscience.org/resource/> .",
   "@prefix dcterms: <http://purl.org/dc/terms/> .",
   "@prefix ex: <https://example.org/gaussian#> .",
   "@prefix ontocompchem: <http://www.theworldavatar.com/ontology/ontocompchem/> .",
   "@prefix prov: <http://www.w3.org/ns/prov#> .",
   "@prefix rdfs: <http://www.w3.org/2000/01/rdf-schema#> .",
   "@prefix xsd: <http://www.w3.org/2001/XMLSchema#> .",
   "@prefix qudt: <http://qudt.org/schema/qudt/> .",
   "@prefix unit: <http://qudt.org/vocab/unit/> .",
   ""]

/-- The unconditional main-calculation block: type, creation time, source
file, and the link to the molecule entity. -/
def mainEntityLines (m : AgentMeta) (calcId molId : String) : List String :=
  ["ex:" ++ calcId ++ " " ++ "a ontocompchem:QuantumCalculation ;",
   "    dcterms:created \"" ++ m.timestamp ++ "\"^^xsd:dateTime ;",
   "    dcterms:source \"" ++ m.filename ++ "\" ;",
   "    ontocompchem:hasMolecule ex:" ++ molId ++ " .",
   ""]

/-- The molecule block: a typed subject, optional scalar properties, and the
closing mutation `rdf_lines[-1] = rdf_lines[-1].rstrip(' ;') + " ."`. -/
def moleculeLines (molId : String) (d : AgentData) : List String :=
  let props :=
    optChunk d.natom (fun n => "    cheminf:hasAtomCount " ++ toString n ++ " ;")
    ++ optChunk d.charge (fun c => "    cheminf:hasCharge " ++ toString c ++ " ;")
    ++ optChunk d.mult (fun mu => "    cheminf:hasMultiplicity " ++ toString mu ++ " ;")
    ++ optChunk d.atommasses (fun ms =>
         "    cheminf:hasMolecularWeight " ++
           fmtRat (ms.foldl rAdd (mkRat 0 1)) 6 ++ " ;")
  mutateLast (fun s => rstripSemiSp s ++ " .")
    (("ex:" ++ molId ++ " " ++ "a cheminf:Molecule ;") :: props) ++ [""]

/-- The atom section: final geometry frame, one block per coordinate row,
atomic numbers added when `atomnos` is present. -/
def agentAtoms (molId : String) (d : AgentData) : List String :=
  match d.atomcoords with
  | some frames =>
    if 0 < frames.length then
      let coords := frames.getLast?.getD []
      coords.enum.flatMap (fun p =>
        let atomId := "atom_" ++ molId ++ "_" ++ toString (p.1 + 1)
        ["ex:" ++ atomId ++ " " ++ "a cheminf:Atom ;",
         "    cheminf:isPartOf ex:" ++ molId ++ " ;"]
        ++ (match d.atomnos with
            | some ns =>
              ["    cheminf:hasAtomicNumber " ++ toString ((ns.get? p.1).getD 0) ++ " ;"]
            | none => [])
        ++ ["    cheminf:hasXCoordinate " ++ fmtRat ((p.2.get? 0).getD (mkRat 0 1)) 6 ++ " ;",
            "    cheminf:hasYCoordinate " ++ fmtRat ((p.2.get? 1).getD (mkRat 0 1)) 6 ++ " ;",
            "    cheminf:hasZCoordinate " ++ fmtRat ((p.2.get? 2).getD (mkRat 0 1)) 6 ++ " .",
            ""])
    else []
  | none => []

/-- The SCF section: one `hasSCFEnergy` line per energy, Hartree-converted
with the full-precision factor; no eV line is emitted in this variant. -/
def agentScf (calcId : String) (es : List Rat) : List String :=
  es.map (fun e =>
    "ex:" ++ calcId ++ " ontocompchem:hasSCFEnergy " ++
      fmtRat (rDiv e hartreeFull) 10 ++ " .")

/-- The per-spin-channel HOMO/LUMO emission of `generate_rdf_triples`:
HOMO line when the index is in range, LUMO and gap lines only when
`homo_idx + 1` is also in range. -/
def homoLumoChannel (calcId : String) (mes : List (List Rat))
    (spin : Nat) (h : Int) : List String :=
  if 0 ≤ h then
    if spin < mes.length then
      let es := (mes.get? spin).getD []
      if h < (es.length : Int) then
        let homo := (es.get? h.toNat).getD (mkRat 0 1)
        ["ex:" ++ calcId ++ " ontocompchem:hasHOMOEnergy " ++ fmtRat homo 6 ++ " ."]
        ++ (if h + 1 < (es.length : Int) then
              let lumo := (es.get? (h.toNat + 1)).getD (mkRat 0 1)
              ["ex:" ++ calcId ++ " ontocompchem:hasLUMOEnergy " ++ fmtRat lumo 6 ++ " .",
               "ex:" ++ calcId ++ " ontocompchem:hasHOMOLUMOGap " ++
                 fmtRat (rSub lumo homo) 6 ++ " ."]
            else [])
      else []
    else []
  else []

/-- The HOMO/LUMO section: iterate over `enumerate(data.homos)`. -/
def agentHomoLumo (calcId : String) (d : AgentData) : List String :=
  match d.homos, d.moenergies with
  | some hs, some mes => hs.enum.flatMap (fun p => homoLumoChannel calcId mes p.1 p.2)
  | _, _ => []

/-- The vibrational-frequency section with defensively indexed IR intensities
and Raman activities. -/
def agentVib (calcId : String) (d : AgentData) : List String :=
  match d.vibfreqs with
  | some fs =>
    fs.enum.flatMap (fun p =>
      let fid := "freq_" ++ calcId ++ "_" ++ toString (p.1 + 1)
      ["ex:" ++ fid ++ " " ++ "a ontocompchem:VibrationalFrequency ;",
       "    ontocompchem:belongsTo ex:" ++ calcId ++ " ;",
       "    ontocompchem:hasFrequency " ++ fmtRat p.2 2 ++ " ;",
       "    qudt:hasUnit unit:PER-CM ."]
      ++ (match d.vibirs with
          | some irs =>
            if p.1 < irs.length then
              ["ex:" ++ fid ++ " ontocompchem:hasIRIntensity " ++
                 fmtRat ((irs.get? p.1).getD (mkRat 0 1)) 4 ++ " ."]
            else []
          | none => [])
      ++ (match d.vibramans with
          | some rs =>
            if p.1 < rs.length then
              ["ex:" ++ fid ++ " ontocompchem:hasRamanActivity " ++
                 fmtRat ((rs.get? p.1).getD (mkRat 0 1)) 4 ++ " ."]
            else []
          | none => [])
      ++ [""])
  | none => []

/-- The four optional thermodynamic lines. -/
def agentThermo (calcId : String) (d : AgentData) : List String :=
  optChunk d.enthalpy (fun v =>
    "ex:" ++ calcId ++ " ontocompchem:hasEnthalpy " ++ fmtRat v 10 ++ " .")
  ++ optChunk d.freeenergy (fun v =>
    "ex:" ++ calcId ++ " ontocompchem:hasFreeEnergy " ++ fmtRat v 10 ++ " .")
  ++ optChunk d.entropy (fun v =>
    "ex:" ++ calcId ++ " ontocompchem:hasEntropy " ++ fmtRat v 10 ++ " .")
  ++ optChunk d.zpve (fun v =>
    "ex:" ++ calcId ++ " ontocompchem:hasZPVE " ++ fmtRat v 10 ++ " .")

/-- The electronic-transition section with defensively indexed oscillator
strengths. -/
def agentEt (calcId : String) (d : AgentData) : List String :=
  match d.etenergies with
  | some es =>
    es.enum.flatMap (fun p =>
      let tid := "trans_" ++ calcId ++ "_" ++ toString (p.1 + 1)
      ["ex:" ++ tid ++ " " ++ "a ontocompchem:ElectronicTransition ;",
       "    ontocompchem:belongsTo ex:" ++ calcId ++ " ;",
       "    ontocompchem:hasTransitionEnergy " ++ fmtRat p.2 2 ++ " ;",
       "    qudt:hasUnit unit:PER-CM ."]
      ++ (match d.etoscs with
          | some os =>
            if p.1 < os.length then
              ["ex:" ++ tid ++ " ontocompchem:hasOscillatorStrength " ++
                 fmtRat ((os.get? p.1).getD (mkRat 0 1)) 6 ++ " ."]
            else []
          | none => [])
      ++ [""])
  | none => []

/-- The atomic-charge section: one line per (charge scheme, atom). -/
def agentCharges (molId : String) (d : AgentData) : List String :=
  match d.atomcharges with
  | some sets =>
    sets.flatMap (fun cs =>
      cs.2.enum.map (fun p =>
        "ex:atom_" ++ molId ++ "_" ++ toString (p.1 + 1) ++
          " ontocompchem:has" ++ cs.1 ++ "Charge " ++ fmtRat p.2 6 ++ " ."))
  | none => []

/-- The molecular-orbital section: five lines per orbital per spin channel. -/
def agentMos (calcId : String) (d : AgentData) : List String :=
  match d.moenergies with
  | some mes =>
    mes.enum.flatMap (fun sp =>
      sp.2.enum.flatMap (fun p =>
        let moid := "mo_" ++ calcId ++ "_spin" ++ toString sp.1 ++ "_" ++ toString (p.1 + 1)
        ["ex:" ++ moid ++ " " ++ "a ontocompchem:MolecularOrbital ;",
         "    ontocompchem:belongsTo ex:" ++ calcId ++ " ;",
         "    ontocompchem:hasSpin " ++ toString sp.1 ++ " ;",
         "    ontocompchem:hasOrbitalIndex " ++ toString (p.1 + 1) ++ " ;",
         "    ontocompchem:hasOrbitalEnergy " ++ fmtRat p.2 6 ++ " ."]))
  | none => []

/-- The dipole-moment section: the Euclidean norm of components 1–3 of each
moment vector of length at least 4. -/
def agentMoments (calcId : String) (d : AgentData) : List String :=
  match d.moments with
  | some ms =>
    ms.flatMap (fun mset =>
      if 4 ≤ mset.length then
        let g := fun (i : Nat) => (mset.get? i).getD (mkRat 0 1)
        let s := rAdd (rAdd (rMul (g 1) (g 1)) (rMul (g 2) (g 2))) (rMul (g 3) (g 3))
        ["ex:" ++ calcId ++ " ontocompchem:hasDipoleMoment " ++ fmtSqrt6 s ++ " ."]
      else [])
  | none => []

/-- The basis-set and optimization-status lines. -/
def agentMisc (calcId : String) (d : AgentData) : List String :=
  optChunk d.nbasis (fun n =>
    "ex:" ++ calcId ++ " ontocompchem:hasBasisFunctions " ++ toString n ++ " .")
  ++ optChunk d.optdone (fun b =>
    "ex:" ++ calcId ++ " ontocompchem:isOptimizationConverged " ++
      (if b then "true" else "false") ++ " .")

/-- The numpy shape test `pol_tensor.shape == (3, 3)`. -/
def shape33 (t : List (List Rat)) : Bool :=
  t.length == 3 && t.all (fun r => r.length == 3)

/-- `np.trace` of a 3×3 tensor (entries read defensively; only evaluated
under the `shape33` guard). -/
def traceOf (t : List (List Rat)) : Rat :=
  let ent := fun (i j : Nat) => (((t.get? i).getD []).get? j).getD (mkRat 0 1)
  rAdd (rAdd (ent 0 0) (ent 1 1)) (ent 2 2)

/-- The polarizability section: one average-polarizability line (`trace/3`)
per tensor of shape exactly 3×3; other shapes emit nothing.  (The enumeration
index of the source loop is unused.) -/
def polLines (calcId : String) (ts : List (List (List Rat))) : List String :=
  ts.flatMap (fun t =>
    if shape33 t then
      ["ex:" ++ calcId ++ " ontocompchem:hasAveragePolarizability " ++
         fmtRat (rDiv (traceOf t) (mkRat 3 1)) 6 ++ " ."]
    else [])

/-- The polarizability section applied to the data object. -/
def agentPol (calcId : String) (d : AgentData) : List String :=
  match d.polarizabilities with
  | some ts => polLines calcId ts
  | none => []

/-- All lines of `generate_rdf_triples` up to (and excluding) the trailing
metadata comments, in source order. -/
def agentBody (d : AgentData) (m : AgentMeta) : List String :=
  let calcId := calcIdOf m
  let molId := "mol_" ++ calcId
  agentPreamble ++ mainEntityLines m calcId molId ++ moleculeLines molId d
  ++ agentAtoms molId d
  ++ (match d.scfenergies with
      | some es => agentScf calcId es
      | none => [])
  ++ agentHomoLumo calcId d ++ agentVib calcId d ++ agentThermo calcId d
  ++ agentEt calcId d ++ agentCharges molId d ++ agentMos calcId d
  ++ agentMoments calcId d ++ agentMisc calcId d ++ agentPol calcId d

/-- The full line list of `generate_rdf_triples`; `now` is the ambient clock
reading `datetime.now().isoformat()` taken while emitting the trailing
comment. -/
def genAgentLines (d : AgentData) (m : AgentMeta) (now : String) : List String :=
  agentBody d m ++
    ["",
     "# Parsed using cclib version: " ++ cclibVersion,
     "# Generated on: " ++ now,
     "# Source file: " ++ m.filename]

/-- `generate_rdf_triples(data, metadata)`: the joined output text. -/
def generate_rdf_triples (d : AgentData) (m : AgentMeta) (now : String) : String :=
  String.intercalate "\n" (genAgentLines d m now)

/-- Well-formedness of a data object: the index alignments under which the
Python function completes without raising (cclib's index-aligned arrays always
satisfy this).  On records violating it the Python code would raise, while the
total model above reads missing entries as defaults. -/
def AgentWF (d : AgentData) : Prop :=
  match d.atomcoords with
  | none => True
  | some frames =>
    match frames.getLast? with
    | none => True
    | some coords =>
      (∀ c ∈ coords, 3 ≤ c.length) ∧
      (match d.atomnos with
       | none => True
       | some ns => coords.length ≤ ns.length)

/-- A data object with every optional attribute absent. -/
def emptyAgent : AgentData :=
  ⟨none, none, none, none, none, none, none, none, none, none, none, none,
   none, none, none, none, none, none, none, none, none, none, none⟩

/-! ## CLI entry points -/

/-- Observable outcome of one CLI invocation: exit code, standard output and
standard error. -/
structure MainResult where
  exitCode : Nat
  stdout : String
  stderr : String
deriving DecidableEq

/-- `main` of `src/py/parse_gaussian_cclib.py` on the default Turtle path:
`json.loads(metadata_json)` is attempted, a `JSONDecodeError` is caught and
replaced by `{}` (no abort), parsing and generation then proceed and the
result is printed; the function never exits non-zero past argument parsing.
(`--format json` prints a JSON dump instead; the metadata fallback is
identical on that path.) -/
def src_main (metaParse : Except Unit (List (String × String)))
    (parsed : Option ParsedData) (filepath filename version now : String) :
    MainResult :=
  let md := match metaParse with
    | .ok m2 => m2
    | .error _ => []
  let data := extract_cclib_data parsed filepath filename version now
  ⟨0, generate_rdf_from_cclib data (some md) ++ "\n", ""⟩

/-- `main` of `src/eliza/agent/py/parse_gaussian_cclib.py` on the Turtle path
without `--output`: everything runs inside one `try`; a metadata JSON decode
failure raises before parsing and is reported as `Error: ...` on stderr with
exit code 1; a `None` parse result likewise aborts; otherwise the Turtle text
is printed with exit code 0. -/
def agent_main (metaParse : Except String AgentMeta) (parsed : Option AgentData)
    (inputFile now : String) : MainResult :=
  match metaParse with
  | .error e => ⟨1, "", "Error: " ++ e ++ "\n"⟩
  | .ok m =>
    match parsed with
    | none => ⟨1, "", "Error: Could not parse file " ++ inputFile ++ "\n"⟩
    | some d => ⟨0, generate_rdf_triples d m now ++ "\n", ""⟩

/-! ## General helper lemmas -/

theorem takeLenAppend {α : Type} (xs ys : List α) (k : Nat) :
    (xs ++ ys).take (xs.length + k) = xs ++ ys.take k := by
  induction xs with
  | nil => simp
  | cons a t ih => simp [List.length_cons, Nat.succ_add, List.take_succ_cons, ih]

theorem chPreSelf (p rest : List Char) : chPre p (p ++ rest) = true := by
  induction p with
  | nil => rfl
  | cons a t ih => simp [chPre, ih]

theorem chPreExtend (p : List Char) :
    ∀ l m : List Char, chPre p l = true → chPre p (l ++ m) = true := by
  induction p with
  | nil => intro l m _; rfl
  | cons a t ih =>
    intro l m h
    cases l with
    | nil => cases h
    | cons b bs =>
      simp only [chPre, Bool.and_eq_true, beq_iff_eq] at h
      simp only [List.cons_append, chPre, Bool.and_eq_true, beq_iff_eq]
      exact ⟨h.1, ih bs m h.2⟩

theorem hasSubChHere (p rest : List Char) : hasSubCh p (p ++ rest) = true := by
  cases p with
  | nil =>
    cases rest with
    | nil => rfl
    | cons c cs => simp [hasSubCh, chPre]
  | cons a t =>
    simp only [List.cons_append, hasSubCh, Bool.or_eq_true]
    exact Or.inl (chPreSelf (a :: t) rest)

theorem hasSubChCons (p : List Char) (c : Char) (l : List Char)
    (h : hasSubCh p l = true) : hasSubCh p (c :: l) = true := by
  simp only [hasSubCh, Bool.or_eq_true]
  exact Or.inr h

theorem hasSubChAppend (p w t : List Char) (h : hasSubCh p t = true) :
    hasSubCh p (w ++ t) = true := by
  induction w with
  | nil => exact h
  | cons c cs ih => exact hasSubChCons p c (cs ++ t) ih

theorem hasSubChLeft (p : List Char) :
    ∀ l m : List Char, hasSubCh p l = true → hasSubCh p (l ++ m) = true := by
  intro l
  induction l with
  | nil =>
    intro m h
    cases p with
    | nil =>
      cases m with
      | nil => rfl
      | cons c cs => simp [hasSubCh, chPre]
    | cons a t => cases h
  | cons c cs ih =>
    intro m h
    simp only [hasSubCh, Bool.or_eq_true] at h
    rcases h with h | h
    · simp only [List.cons_append, hasSubCh, Bool.or_eq_true]
      exact Or.inl (chPreExtend p (c :: cs) m h)
    · exact hasSubChCons p c (cs ++ m) (ih m h)

theorem hasSubHead (pat rest : String) : hasSub (pat ++ rest) pat = true := by
  unfold hasSub
  rw [String.data_append]
  exact hasSubChHere pat.data rest.data

theorem hasSubRight (w t pat : String) (h : hasSub t pat = true) :
    hasSub (w ++ t) pat = true := by
  unfold hasSub at h ⊢
  rw [String.data_append]
  exact hasSubChAppend pat.data w.data t.data h

theorem hasSubLeft (s b pat : String) (h : hasSub s pat = true) :
    hasSub (s ++ b) pat = true := by
  unfold hasSub at h ⊢
  rw [String.data_append]
  exact hasSubChLeft pat.data s.data b.data h

theorem strAppendAssoc (a b c : String) : a ++ b ++ c = a ++ (b ++ c) := by
  cases a
  cases b
  cases c
  exact congrArg String.mk (List.append_assoc ..)

theorem strEmptyAppend (s : String) : "" ++ s = s := by
  cases s
  rfl

theorem strAppendEmpty (s : String) : s ++ "" = s := by
  cases s
  exact congrArg String.mk (List.append_nil _)

theorem foldlAppendHoist (l : List String) :
    ∀ acc : String, l.foldl (· ++ ·) acc = acc ++ l.foldl (· ++ ·) "" := by
  induction l with
  | nil => intro acc; exact (strAppendEmpty acc).symm
  | cons x xs ih =>
    intro acc
    show xs.foldl (· ++ ·) (acc ++ x) = acc ++ xs.foldl (· ++ ·) ("" ++ x)
    rw [ih (acc ++ x), ih ("" ++ x), strEmptyAppend, strAppendAssoc]

theorem joinCons (c : String) (l : List String) :
    String.join (c :: l) = c ++ String.join l := by
  show l.foldl (· ++ ·) ("" ++ c) = c ++ l.foldl (· ++ ·) ""
  rw [strEmptyAppend, foldlAppendHoist]

theorem flatMapIfSingleton {α β : Type} (p : α → Bool) (f : α → β) (l : List α) :
    (l.flatMap (fun a => if p a then [f a] else [])) = (l.filter p).map f := by
  induction l with
  | nil => rfl
  | cons a t ih =>
    simp only [List.flatMap_cons, List.filter_cons]
    cases hp : p a <;> simp [hp, ih]

/-! ## Claim theorems -/

/-- C10: the Turtle generator `generate_rdf_from_cclib` never reads its
`metadata` parameter, so its output depends only on the data record: any two
metadata values yield identical text. -/
theorem C10_theorem (r : Except String CclibDict)
    (m1 m2 : Option (List (String × String))) :
    generate_rdf_from_cclib r m1 = generate_rdf_from_cclib r m2 := rfl

/-- C1 (counterexample): `generate_rdf_triples` is not a pure function of the
data record and the metadata record — two runs on identical inputs that read
different ambient clock values produce different output text. -/
theorem C1_counterexample :
    generate_rdf_triples emptyAgent ⟨"2024-01-01T00:00:00", "water.log"⟩
        "2024-01-01T00:00:01" ≠
      generate_rdf_triples emptyAgent ⟨"2024-01-01T00:00:00", "water.log"⟩
        "2024-01-01T00:00:02" := by
  decide

/-- C1 (amended): on records the encoder completes on, the ambient clock read
by `generate_rdf_triples` affects exactly the second-to-last output line (the
`# Generated on:` comment); with the clock reading fixed, the output is a
function of the two arguments alone. -/
theorem C1_amended (d : AgentData) (m : AgentMeta) (n1 n2 : String)
    (hwf : AgentWF d) :
    genAgentLines d m n1 =
      (genAgentLines d m n2).take ((genAgentLines d m n2).length - 2) ++
        ["# Generated on: " ++ n1, "# Source file: " ++ m.filename] := by
  unfold genAgentLines
  rw [List.length_append]
  have h4 : ([("" : String),
      "# Parsed using cclib version: " ++ cclibVersion,
      "# Generated on: " ++ n2,
      "# Source file: " ++ m.filename]).length = 4 := rfl
  rw [h4]
  have harith : (agentBody d m).length + 4 - 2 = (agentBody d m).length + 2 := by
    omega
  rw [harith, takeLenAppend]
  simp

/-- C1 (witness): the amended statement instantiated on an empty record and
two distinct clock readings. -/
theorem C1_amended_witness :
    genAgentLines emptyAgent ⟨"2024-01-01T00:00:00", "water.log"⟩ "A" =
      (genAgentLines emptyAgent ⟨"2024-01-01T00:00:00", "water.log"⟩ "B").take
        ((genAgentLines emptyAgent ⟨"2024-01-01T00:00:00", "water.log"⟩ "B").length - 2) ++
        ["# Generated on: " ++ "A", "# Source file: " ++ "water.log"] :=
  C1_amended emptyAgent ⟨"2024-01-01T00:00:00", "water.log"⟩ "A" "B" trivial

/-- C8: an average-polarizability line is emitted exactly for the tensors of
shape 3×3 (`trace/3` each), and a sequence of one 3×3 and one 2×2 tensor
yields exactly one such line. -/
theorem C8_theorem :
    (∀ (calcId : String) (ts : List (List (List Rat))),
       polLines calcId ts =
         (ts.filter shape33).map (fun t =>
           "ex:" ++ calcId ++ " ontocompchem:hasAveragePolarizability " ++
             fmtRat (rDiv (traceOf t) (mkRat 3 1)) 6 ++ " .")) ∧
    polLines "c"
        [[[mkRat 1 1, mkRat 2 1, mkRat 3 1],
          [mkRat 4 1, mkRat 5 1, mkRat 6 1],
          [mkRat 7 1, mkRat 8 1, mkRat 9 1]],
         [[mkRat 1 1, mkRat 2 1], [mkRat 3 1, mkRat 4 1]]] =
      ["ex:c ontocompchem:hasAveragePolarizability 5.000000 ."] := by
  constructor
  · intro cid ts
    exact flatMapIfSingleton shape33 _ ts
  · decide

/-- C9 (counterexample): the `src/py` CLI given an unparseable metadata JSON
string does not fail — it exits 0 and still prints Turtle output. -/
theorem C9_counterexample :
    (src_main (.error ()) (some ⟨none, none, none, none, none, none, none,
        none, none⟩) "water.log" "water.log" "1.8" "T0").exitCode = 0 ∧
    (src_main (.error ()) (some ⟨none, none, none, none, none, none, none,
        none, none⟩) "water.log" "water.log" "1.8" "T0").stdout ≠ "" := by
  constructor
  · rfl
  · decide

/-- C9 (amended): in the agent CLI a metadata JSON decode failure is fatal —
exit code 1, an `Error:` line on stderr, no stdout; in the `src/py` CLI the
decode error is caught, metadata falls back to `{}`, the run exits 0, and
(since the generator ignores metadata) stdout is identical to a run with any
successfully decoded metadata. -/
theorem C9_amended :
    (∀ (e : String) (parsed : Option AgentData) (f now : String),
       agent_main (.error e) parsed f now = ⟨1, "", "Error: " ++ e ++ "\n"⟩) ∧
    (∀ (mp : List (String × String)) (parsed : Option ParsedData)
       (fp fn v now : String),
       (src_main (.error ()) parsed fp fn v now).exitCode = 0 ∧
       (src_main (.error ()) parsed fp fn v now).stdout =
         (src_main (.ok mp) parsed fp fn v now).stdout) :=
  ⟨fun _ _ _ _ => rfl, fun _ _ _ _ _ _ => ⟨rfl, rfl⟩⟩

/-- The parse record of the C6 scenario: orbital energies
`[-10.0, -5.0, -1.0, 2.0]` in the alpha channel with HOMO index 1. -/
def p6 : ParsedData :=
  ⟨none, none, none, none, none, none, none,
   some [[mkRat (-10) 1, mkRat (-5) 1, mkRat (-1) 1, mkRat 2 1]], some [1]⟩

/-- The gap entry `extract_cclib_data` derives for that record. -/
def g6 : GapEntry := ⟨0, mkRat (-5) 1, mkRat (-1) 1, mkRat 4 1, mkRat 4000 27211⟩

/-- The data dictionary `extract_cclib_data` produces for that record. -/
def d6 : CclibDict :=
  ⟨"f.log", "T0", "1.8", none, none, none, none, none, none, none, none,
   some [g6], none⟩

/-- C6 (counterexample): for orbital energies `[-10, -5, -1, 2]` with HOMO
index 1, the derived HOMO/LUMO/gap eV values are as claimed, but the
Hartree-converted gap is `4 / 27.211`, not `4 / 27.211386024367243` as the
claim states: this encoder variant uses the abbreviated factor. -/
theorem C6_counterexample :
    extract_cclib_data (some p6) "f.log" "f.log" "1.8" "T0" = .ok d6 ∧
    g6.homo_energy_ev = mkRat (-5) 1 ∧
    g6.lumo_energy_ev = mkRat (-1) 1 ∧
    g6.gap_ev = mkRat 4 1 ∧
    g6.gap_hartree ≠ rDiv (mkRat 4 1) hartreeFull := by
  refine ⟨by decide, rfl, rfl, rfl, by decide⟩

/-- C6 (amended): same scenario, with the Hartree-converted gap equal to
`4 / 27.211` (the abbreviated factor hard-coded in
`src/py/parse_gaussian_cclib.py`). -/
theorem C6_amended :
    extract_cclib_data (some p6) "f.log" "f.log" "1.8" "T0" = .ok d6 ∧
    g6.homo_energy_ev = mkRat (-5) 1 ∧
    g6.lumo_energy_ev = mkRat (-1) 1 ∧
    g6.gap_ev = mkRat 4 1 ∧
    g6.gap_hartree = rDiv (mkRat 4 1) hartreeAbbrev := by
  refine ⟨by decide, rfl, rfl, rfl, by decide⟩

/-- A record whose HOMO/LUMO computation raises (`homos = [-6]` against four
orbital energies), alongside atom data that would otherwise be emitted. -/
def p2 : ParsedData :=
  ⟨some [6], some [[[mkRat 0 1, mkRat 0 1, mkRat 0 1]]], none, none, some 1,
   none, none, some [[mkRat 1 1, mkRat 2 1, mkRat 3 1, mkRat 4 1]], some [-6]⟩

/-- C2 (counterexample): an out-of-range index inside the HOMO/LUMO
computation is not caught per property — the function-wide handler replaces
the whole calculation by an error record, the atom data present in the record
is not emitted, and the generator output is an error comment. -/
theorem C2_counterexample :
    extract_cclib_data (some p2) "f.log" "f.log" "1.8" "T0" =
      .error ("Error parsing f.log: list index out of range") ∧
    hasSub (generate_rdf_from_cclib
        (extract_cclib_data (some p2) "f.log" "f.log" "1.8" "T0") none)
      "cheminf:Atom" = false ∧
    hasSub (generate_rdf_from_cclib
        (extract_cclib_data (some p2) "f.log" "f.log" "1.8" "T0") none)
      "# Error" = true := by
  refine ⟨by decide, by decide, by decide⟩

/-- C2 (amended): whenever the HOMO/LUMO computation raises an out-of-range
index, the single function-wide except handler of `extract_cclib_data`
replaces the entire calculation output by an error record, and the Turtle
generator then emits only the error comment — all-or-nothing rather than
per-property recovery. -/
theorem C2_amended (p : ParsedData) (fp fn v now : String)
    (es : List Rat) (h : Int)
    (ha : p.atomnos = none) (hm : p.moenergies = some [es])
    (hh : p.homos = some [h])
    (hguard : (h + 1 : Int) < (es.length : Int))
    (hneg : (h + 1 : Int) + (es.length : Int) < 0) :
    extract_cclib_data (some p) fp fn v now =
      .error ("Error parsing " ++ fp ++ ": " ++ "list index out of range") ∧
    srcChunks (extract_cclib_data (some p) fp fn v now) =
      ["# Error: " ++ ("Error parsing " ++ fp ++ ": " ++ "list index out of range")
        ++ "\n"] := by
  have hlen : (0 : Int) ≤ (es.length : Int) := Int.ofNat_nonneg _
  have hlt : (h + 1 : Int) < 0 := by omega
  have hj : ¬ (0 ≤ (h + 1 : Int) + (es.length : Int)) := by omega
  have hpy : pyIdx es (h + 1) = .error "list index out of range" := by
    unfold pyIdx
    rw [if_pos hlt, if_neg hj]
  have hgap : gapLoop 0 [(es, h)] = .error "list index out of range" := by
    unfold gapLoop
    rw [if_pos hguard, hpy]
    rfl
  have hsteps : extractSteps p fn v now = .error "list index out of range" := by
    unfold extractSteps
    rw [ha, hm, hh]
    show (gapLoop 0 ([es].zip [h]) >>= _) >>= _ = _
    rw [show [es].zip [h] = [(es, h)] from rfl, hgap]
    rfl
  have hres : extract_cclib_data (some p) fp fn v now =
      .error ("Error parsing " ++ fp ++ ": " ++ "list index out of range") := by
    show (match extractSteps p fn v now with
          | Except.ok d => Except.ok d
          | Except.error e =>
              Except.error ("Error parsing " ++ fp ++ ": " ++ e)) =
        Except.error ("Error parsing " ++ fp ++ ": " ++ "list index out of range")
    rw [hsteps]
  exact ⟨hres, by rw [hres]; rfl⟩

/-- C2 (witness): the amended statement instantiated at a concrete raising
record. -/
theorem C2_amended_witness :
    extract_cclib_data
        (some ⟨none, none, none, none, none, none, none,
          some [[mkRat 1 1, mkRat 2 1, mkRat 3 1, mkRat 4 1]], some [-6]⟩)
        "f.log" "f.log" "1.8" "T0" =
      .error ("Error parsing " ++ "f.log" ++ ": " ++ "list index out of range") ∧
    srcChunks (extract_cclib_data
        (some ⟨none, none, none, none, none, none, none,
          some [[mkRat 1 1, mkRat 2 1, mkRat 3 1, mkRat 4 1]], some [-6]⟩)
        "f.log" "f.log" "1.8" "T0") =
      ["# Error: " ++ ("Error parsing " ++ "f.log" ++ ": " ++ "list index out of range")
        ++ "\n"] :=
  C2_amended _ "f.log" "f.log" "1.8" "T0"
    [mkRat 1 1, mkRat 2 1, mkRat 3 1, mkRat 4 1] (-6)
    rfl rfl rfl (by decide) (by decide)

/-- C4 (counterexample): the agent encoder given the SCF energy
`-1100.123456` eV emits exactly one SCF-energy line — the Hartree-converted
one — and no line carrying the eV value: the eV triple required by the claim
is absent in this encoder variant. -/
theorem C4_counterexample :
    ((genAgentLines
        ⟨none, none, none, none, none, none, some [mkRat (-1100123456) 1000000],
         none, none, none, none, none, none, none, none, none, none, none,
         none, none, none, none, none⟩
        ⟨"2024-01-01T00:00:00", "water.log"⟩ "T0").filter
      (fun l => hasSub l "hasSCFEnergy")).length = 1 ∧
    (genAgentLines
        ⟨none, none, none, none, none, none, some [mkRat (-1100123456) 1000000],
         none, none, none, none, none, none, none, none, none, none, none,
         none, none, none, none, none⟩
        ⟨"2024-01-01T00:00:00", "water.log"⟩ "T0").filter
      (fun l => hasSub l "-1100.123456") = [] := by
  refine ⟨by decide, by decide⟩

/-- C4 (amended): for every SCF energy, the `src/py` encoder emits both the
Hartree-converted value (under `ontocompchem:hasValue`, factor 27.211) and
the eV value as provided (under the distinct predicate
`ontocompchem:hasValueEV`); the agent encoder emits exactly one line per SCF
energy (the Hartree-converted one, factor 27.211386024367243). -/
theorem C4_amended :
    (∀ (base : String) (es : List Rat) (i : Nat) (e : Rat),
       es.get? i = some e →
       ("    ontocompchem:hasValue " ++ fmtRat (rDiv e hartreeAbbrev) 8 ++ " ;\n")
           ∈ srcScf base es ∧
       ("    ontocompchem:hasValueEV " ++ fmtRat e 6 ++ " ;\n")
           ∈ srcScf base es) ∧
    (∀ (calcId : String) (es : List Rat),
       (agentScf calcId es).length = es.length) := by
  constructor
  · intro base es i e hi
    have hmem : (i, e) ∈ es.enum := List.mk_mem_enum_iff_get?.mpr hi
    constructor
    · exact List.mem_flatMap.mpr ⟨(i, e), hmem, by simp [srcScf]⟩
    · exact List.mem_flatMap.mpr ⟨(i, e), hmem, by simp [srcScf]⟩
  · intro c es
    simp [agentScf]

/-- C4 (witness): the amended statement instantiated at the single SCF energy
`-1100.123456` eV. -/
theorem C4_amended_witness :
    ("    ontocompchem:hasValue " ++
        fmtRat (rDiv (mkRat (-1100123456) 1000000) hartreeAbbrev) 8 ++ " ;\n")
      ∈ srcScf "x" [mkRat (-1100123456) 1000000] ∧
    ("    ontocompchem:hasValueEV " ++ fmtRat (mkRat (-1100123456) 1000000) 6 ++ " ;\n")
      ∈ srcScf "x" [mkRat (-1100123456) 1000000] :=
  C4_amended.1 "x" [mkRat (-1100123456) 1000000] 0 (mkRat (-1100123456) 1000000) rfl

/-- The parse record of the C5 boundary scenario: two orbital energies with
HOMO index 1 (the last valid index), so no LUMO exists. -/
def p5 : ParsedData :=
  ⟨none, none, none, none, none, none, none,
   some [[mkRat (-10) 1, mkRat (-5) 1]], some [1]⟩

/-- C5 (counterexample): in the `src/py` pipeline, a channel whose HOMO index
is the last valid orbital index produces no `homo_lumo_gaps` entry at all, so
the generated output carries no HOMO-energy triple either — contradicting the
claim that the HOMO triple is still emitted. -/
theorem C5_counterexample :
    extract_cclib_data (some p5) "f.log" "f.log" "1.8" "T0" =
      .ok ⟨"f.log", "T0", "1.8", none, none, none, none, none, none, none,
        none, none, none⟩ ∧
    hasSub (generate_rdf_from_cclib
        (extract_cclib_data (some p5) "f.log" "f.log" "1.8" "T0") none)
      "hasHOMOEnergy" = false := by
  refine ⟨by decide, by decide⟩

/-- C5 (amended): in the agent encoder, a spin channel whose HOMO index is
the last valid index emits exactly the HOMO-energy line — no LUMO line, no
gap line, no failure; in the `src/py` extractor the same boundary emits
nothing for that channel (the whole gap record, including the HOMO energy, is
omitted). -/
theorem C5_amended :
    (∀ (calcId : String) (mes : List (List Rat)) (spin : Nat) (h : Int)
       (es : List Rat),
       mes.get? spin = some es → 0 ≤ h → h = (es.length : Int) - 1 →
       homoLumoChannel calcId mes spin h =
         ["ex:" ++ calcId ++ " ontocompchem:hasHOMOEnergy " ++
            fmtRat ((es.get? (es.length - 1)).getD (mkRat 0 1)) 6 ++ " ."]) ∧
    (∀ (i : Nat) (es : List Rat) (h : Int),
       (h + 1 : Int) = (es.length : Int) → gapLoop i [(es, h)] = .ok []) := by
  constructor
  · intro cid mes spin h es hget hh0 hlast
    have hspin : spin < mes.length := by
      rcases List.get?_eq_some.mp hget with ⟨hlt2, _⟩
      exact hlt2
    have hlt : h < (es.length : Int) := by omega
    have hnlt : ¬ (h + 1 < (es.length : Int)) := by omega
    have htn : h.toNat = es.length - 1 := by omega
    unfold homoLumoChannel
    rw [if_pos hh0]
    rw [if_pos hspin, hget]
    simp only [Option.getD_some]
    rw [if_pos hlt, if_neg hnlt, htn]
    simp
  · intro i es h heq
    unfold gapLoop
    rw [if_neg (by omega)]
    rfl

/-! ### C3 machinery -/

theorem mkDataAppend (a : String) (l : List Char) :
    String.mk (a.data ++ l) = a ++ String.mk l := by
  cases a
  rfl

theorem rstripMolLit (a : String) :
    rstripSemiSp (a ++ "a cheminf:Molecule ;") = a ++ "a cheminf:Molecule" := by
  unfold rstripSemiSp
  rw [String.data_append, List.reverse_append, List.dropWhile_append]
  have h1 : (("a cheminf:Molecule ;" : String).data.reverse.dropWhile
      (fun c => c == ' ' || c == ';')) =
      ("a cheminf:Molecule" : String).data.reverse := by decide
  rw [h1, if_neg (by decide)]
  rw [List.reverse_append, List.reverse_reverse, List.reverse_reverse]
  rw [mkDataAppend]

/-- A pattern made of three consecutive appended pieces occurs in a string
that starts with those pieces. -/
theorem hasSubChain3 (a b c rest : String) :
    hasSub (a ++ (b ++ (c ++ rest))) (a ++ b ++ c) = true := by
  unfold hasSub
  simp only [String.data_append]
  have he : a.data ++ (b.data ++ (c.data ++ rest.data)) =
      (a.data ++ b.data ++ c.data) ++ rest.data := by
    simp [List.append_assoc]
  rw [he]
  exact hasSubChHere _ _

/-- Every line of the main-entity block of the agent encoder appears in the
output line list. -/
theorem memAgentLines (d : AgentData) (m : AgentMeta) (now : String)
    (x : String)
    (hx : x ∈ agentPreamble ∨
          x ∈ mainEntityLines m (calcIdOf m) ("mol_" ++ calcIdOf m) ∨
          x ∈ moleculeLines ("mol_" ++ calcIdOf m) d) :
    x ∈ genAgentLines d m now := by
  simp only [genAgentLines, agentBody, List.mem_append]
  tauto

/-- The molecule block always starts with a line that mentions the
`cheminf:Molecule` typing (in original or end-mutated form). -/
theorem moleculeTyped (molId : String) (d : AgentData) :
    ∃ line ∈ moleculeLines molId d, hasSub line "a cheminf:Molecule" = true := by
  unfold moleculeLines
  cases hp : optChunk d.natom (fun n => "    cheminf:hasAtomCount " ++ toString n ++ " ;")
    ++ optChunk d.charge (fun c => "    cheminf:hasCharge " ++ toString c ++ " ;")
    ++ optChunk d.mult (fun mu => "    cheminf:hasMultiplicity " ++ toString mu ++ " ;")
    ++ optChunk d.atommasses (fun ms =>
         "    cheminf:hasMolecularWeight " ++
           fmtRat (ms.foldl rAdd (mkRat 0 1)) 6 ++ " ;") with
  | nil =>
    refine ⟨rstripSemiSp ("ex:" ++ molId ++ " " ++ "a cheminf:Molecule ;") ++ " .",
      by simp [mutateLast], ?_⟩
    rw [rstripMolLit]
    apply hasSubLeft
    apply hasSubRight
    exact (by decide : hasSub "a cheminf:Molecule" "a cheminf:Molecule" = true)
  | cons y ys =>
    refine ⟨"ex:" ++ molId ++ " " ++ "a cheminf:Molecule ;",
      by simp [mutateLast], ?_⟩
    apply hasSubRight
    exact (by decide : hasSub "a cheminf:Molecule ;" "a cheminf:Molecule" = true)

/-- The header of the `src/py` generator mentions the QuantumCalculation
typing. -/
theorem headerHasQC (b f pa v : String) :
    hasSub (mkSrcHeader b f pa v) "a ontocompchem:QuantumCalculation ;" = true := by
  simp only [mkSrcHeader, strAppendAssoc]
  iterate 22 apply hasSubRight
  exact hasSubHead "a ontocompchem:QuantumCalculation ;" _

/-- The header mentions the creation timestamp under `prov:generatedAtTime`. -/
theorem headerHasProv (b f pa v : String) :
    hasSub (mkSrcHeader b f pa v)
      ("prov:generatedAtTime" ++ " \"" ++ pa) = true := by
  simp only [mkSrcHeader, strAppendAssoc]
  iterate 30 apply hasSubRight
  exact hasSubChain3 "prov:generatedAtTime" " \"" pa _

/-- The header mentions the source filename under `dcterms:source`. -/
theorem headerHasSource (b f pa v : String) :
    hasSub (mkSrcHeader b f pa v)
      ("dcterms:source \"" ++ f ++ "\"") = true := by
  simp only [mkSrcHeader, strAppendAssoc]
  iterate 25 apply hasSubRight
  exact hasSubChain3 "dcterms:source \"" f "\"" _

/-- C3 (counterexample): for a record with no optional fields, the `src/py`
encoder emits a typed `QuantumCalculation` subject but no `Molecule` entity
and no triple linking the calculation to one — the Molecule link required by
the claim is absent in this encoder variant. -/
theorem C3_counterexample :
    hasSub (generate_rdf_from_cclib
        (extract_cclib_data
          (some ⟨none, none, none, none, none, none, none, none, none⟩)
          "water.log" "water.log" "1.8" "T0") none)
      "Molecule" = false ∧
    hasSub (generate_rdf_from_cclib
        (extract_cclib_data
          (some ⟨none, none, none, none, none, none, none, none, none⟩)
          "water.log" "water.log" "1.8" "T0") none)
      "QuantumCalculation" = true := by
  refine ⟨by decide, by decide⟩

/-- C3 (amended): every encoded record yields a typed `QuantumCalculation`
subject, its creation timestamp and its source filename, and the output is
never empty; the triple linking the calculation to a `Molecule` entity is
emitted unconditionally by the agent encoder only — the `src/py` encoder
emits no Molecule entity at all. -/
theorem C3_amended :
    (∀ (d : AgentData) (m : AgentMeta) (now : String), AgentWF d →
       (∀ x ∈ mainEntityLines m (calcIdOf m) ("mol_" ++ calcIdOf m),
          x ∈ genAgentLines d m now) ∧
       (∃ line ∈ genAgentLines d m now,
          hasSub line "a cheminf:Molecule" = true)) ∧
    (∀ dict : CclibDict,
       (srcChunks (.ok dict)).head? =
         some (mkSrcHeader (mkBaseName dict.mdFilename) dict.mdFilename
           dict.mdParsedAt dict.mdCclibVersion) ∧
       hasSub (generate_rdf_from_cclib (.ok dict) none)
         "a ontocompchem:QuantumCalculation ;" = true ∧
       hasSub (mkSrcHeader (mkBaseName dict.mdFilename) dict.mdFilename
           dict.mdParsedAt dict.mdCclibVersion)
         ("prov:generatedAtTime" ++ " \"" ++ dict.mdParsedAt) = true ∧
       hasSub (mkSrcHeader (mkBaseName dict.mdFilename) dict.mdFilename
           dict.mdParsedAt dict.mdCclibVersion)
         ("dcterms:source \"" ++ dict.mdFilename ++ "\"") = true) := by
  constructor
  · intro d m now _
    constructor
    · intro x hx
      exact memAgentLines d m now x (Or.inr (Or.inl hx))
    · obtain ⟨line, hline, hsub⟩ := moleculeTyped ("mol_" ++ calcIdOf m) d
      exact ⟨line, memAgentLines d m now line (Or.inr (Or.inr hline)), hsub⟩
  · intro dict
    refine ⟨rfl, ?_, headerHasProv _ _ _ _, headerHasSource _ _ _ _⟩
    have hjoin : generate_rdf_from_cclib (.ok dict) none =
        mkSrcHeader (mkBaseName dict.mdFilename) dict.mdFilename
          dict.mdParsedAt dict.mdCclibVersion ++
        String.join
          (optChunk dict.natom (fun n =>
             "ex:" ++ mkBaseName dict.mdFilename ++ " ontocompchem:hasNAtoms "
               ++ toString n ++ " .\n")
           ++ optChunk dict.charge (fun c =>
             "ex:" ++ mkBaseName dict.mdFilename ++ " ontocompchem:hasCharge "
               ++ toString c ++ " .\n")
           ++ optChunk dict.mult (fun mu =>
             "ex:" ++ mkBaseName dict.mdFilename ++ " ontocompchem:hasMultiplicity "
               ++ toString mu ++ " .\n")
           ++ optChunk dict.molecular_formula (fun f =>
             "ex:" ++ mkBaseName dict.mdFilename ++ " ontocompchem:hasMolecularFormula \""
               ++ f ++ "\" .\n")
           ++ (match dict.scfenergies with
               | some es => srcScf (mkBaseName dict.mdFilename) es
               | none => [])
           ++ (match dict.homo_lumo_gaps with
               | some gs => srcGaps (mkBaseName dict.mdFilename) gs
               | none => [])
           ++ (match dict.vibfreqs with
               | some fs => srcVib (mkBaseName dict.mdFilename) fs
               | none => [])
           ++ (match dict.atomnos, dict.final_geometry with
               | some ns, some geo =>
                   srcAtoms (mkBaseName dict.mdFilename) dict.atomsymbols ns geo
               | _, _ => [])
           ++ ["\n"]) := joinCons _ _
    rw [hjoin]
    exact hasSubLeft _ _ _ (headerHasQC _ _ _ _)

/-- C3 (witness): the amended statement instantiated on an empty record —
the unconditional `hasMolecule` link line of the agent encoder is present. -/
theorem C3_amended_witness :
    ("    ontocompchem:hasMolecule ex:" ++
        ("mol_" ++ calcIdOf ⟨"2024-01-01T00:00:00", "water.log"⟩) ++ " .") ∈
      genAgentLines emptyAgent ⟨"2024-01-01T00:00:00", "water.log"⟩ "T0" :=
  (C3_amended.1 emptyAgent ⟨"2024-01-01T00:00:00", "water.log"⟩ "T0"
      trivial).1 _ (by decide)

/-! ### C7 machinery -/

/-- Non-strict key order on counter entries: `a` does not sort after `b`. -/
def keyLe (a b : String × Nat) : Prop := strLt b.1 a.1 = false

theorem strLtChAsymm : ∀ a b : List Char, strLtCh a b = true → strLtCh b a = false := by
  intro a
  induction a with
  | nil =>
    intro b h
    cases b with
    | nil => simp [strLtCh] at h
    | cons c cs => rfl
  | cons x xs ih =>
    intro b h
    cases b with
    | nil => simp [strLtCh] at h
    | cons y ys =>
      simp only [strLtCh] at h ⊢
      by_cases h1 : x < y
      · have h2 : ¬ y < x := fun hc => absurd h1 (lt_asymm hc)
        rw [if_neg h2, if_pos h1]
      · by_cases h2 : y < x
        · rw [if_neg h1, if_pos h2] at h
          cases h
        · rw [if_neg h1, if_neg h2] at h
          rw [if_neg h2, if_neg h1]
          exact ih ys h

theorem strLtAsymm (a b : String) (h : strLt a b = true) : strLt b a = false :=
  strLtChAsymm a.data b.data h

theorem chainInsertSym (x : String × Nat) :
    ∀ l : List (String × Nat), List.Chain' keyLe l →
      List.Chain' keyLe (insertSym x l) := by
  intro l
  induction l with
  | nil => intro _; simp [insertSym]
  | cons y ys ih =>
    intro hch
    by_cases hxy : strLt x.1 y.1 = true
    · simp only [insertSym, if_pos hxy]
      exact List.Chain'.cons (strLtAsymm _ _ hxy) hch
    · have hyx : keyLe y x := eq_false_of_ne_true hxy
      have hys : List.Chain' keyLe ys := hch.tail
      cases ys with
      | nil =>
        simp only [insertSym, if_neg hxy]
        exact List.Chain'.cons hyx (List.chain'_singleton x)
      | cons z zs =>
        by_cases hxz : strLt x.1 z.1 = true
        · simp only [insertSym, if_neg hxy, if_pos hxz]
          exact List.Chain'.cons hyx
            (List.Chain'.cons (strLtAsymm _ _ hxz) hys)
        · simp only [insertSym, if_neg hxy, if_neg hxz]
          have hins : List.Chain' keyLe (z :: insertSym x zs) := by
            have := ih hys
            simpa [insertSym, if_neg hxz] using this
          exact List.Chain'.cons (List.chain'_cons.mp hch).1 hins

theorem sortCountsChain : ∀ l : List (String × Nat),
    List.Chain' keyLe (sortCounts l) := by
  intro l
  induction l with
  | nil => exact List.chain'_nil
  | cons a t ih => exact chainInsertSym a (sortCounts t) ih

theorem insertSymPerm (x : String × Nat) :
    ∀ l : List (String × Nat), (insertSym x l).Perm (x :: l) := by
  intro l
  induction l with
  | nil => exact List.Perm.refl _
  | cons y ys ih =>
    by_cases h : strLt x.1 y.1 = true
    · simp only [insertSym, if_pos h]
      exact List.Perm.refl _
    · simp only [insertSym, if_neg h]
      exact (List.Perm.cons y ih).trans (List.Perm.swap x y ys)

theorem sortCountsPerm : ∀ l : List (String × Nat), (sortCounts l).Perm l := by
  intro l
  induction l with
  | nil => exact List.Perm.refl _
  | cons a t ih => exact (insertSymPerm a (sortCounts t)).trans (ih.cons a)

theorem counterKeysAuxNodup (l : List String) :
    ∀ acc : List String, acc.Nodup →
      (l.foldl (fun acc s => if s ∈ acc then acc else acc ++ [s]) acc).Nodup := by
  induction l with
  | nil => intro acc h; exact h
  | cons x xs ih =>
    intro acc h
    simp only [List.foldl_cons]
    by_cases hx : x ∈ acc
    · rw [if_pos hx]
      exact ih acc h
    · rw [if_neg hx]
      refine ih _ ?_
      rw [List.nodup_append]
      refine ⟨h, List.nodup_singleton x, ?_⟩
      intro a ha hb
      rw [List.mem_singleton] at hb
      subst hb
      exact hx ha

theorem counterKeysAuxMem (l : List String) :
    ∀ (acc : List String) (k : String),
      (k ∈ l.foldl (fun acc s => if s ∈ acc then acc else acc ++ [s]) acc) ↔
        (k ∈ acc ∨ k ∈ l) := by
  induction l with
  | nil => intro acc k; simp
  | cons x xs ih =>
    intro acc k
    simp only [List.foldl_cons]
    by_cases hx : x ∈ acc
    · rw [if_pos hx, ih]
      constructor
      · rintro (h | h)
        · exact Or.inl h
        · exact Or.inr (List.mem_cons_of_mem _ h)
      · rintro (h | h)
        · exact Or.inl h
        · rcases List.mem_cons.mp h with rfl | h2
          · exact Or.inl hx
          · exact Or.inr h2
    · rw [if_neg hx, ih]
      simp only [List.mem_append, List.mem_singleton, List.mem_cons]
      tauto

theorem counterKeysNodup (l : List String) : (counterKeys l).Nodup :=
  counterKeysAuxNodup l [] List.nodup_nil

theorem counterKeysMem (l : List String) (k : String) :
    k ∈ counterKeys l ↔ k ∈ l := by
  unfold counterKeys
  rw [counterKeysAuxMem]
  simp

/-- Unwrap the `molecular_formula` field of an extraction result. -/
def formulaResult (r : Except String CclibDict) : Option String :=
  match r with
  | .ok dd => dd.molecular_formula
  | .error _ => none

/-- The parse record of the C7 scenario: atomic numbers `[6, 1, 1, 1, 1]`
(methane) with a single geometry frame. -/
def p7 : ParsedData :=
  ⟨some [6, 1, 1, 1, 1],
   some [[[mkRat 0 1, mkRat 0 1, mkRat 0 1],
          [mkRat 1 1, mkRat 0 1, mkRat 0 1],
          [mkRat 0 1, mkRat 1 1, mkRat 0 1],
          [mkRat 0 1, mkRat 0 1, mkRat 1 1],
          [mkRat 1 1, mkRat 1 1, mkRat 1 1]]],
   none, none, some 5, none, none, none, none⟩

/-- C7: the molecular formula is built from per-symbol counts sorted in
ascending alphabetical order (unique keys, counts accurate, membership
faithful), the formula for atomic numbers `[6,1,1,1,1]` is `CH4`, and the
generated output carries exactly five atom entities, each with an atomic
number and three coordinate triples. -/
theorem C7_theorem :
    (∀ syms : List String, List.Chain' keyLe (sortCounts (countsOf syms))) ∧
    (∀ syms : List String,
       ((sortCounts (countsOf syms)).map Prod.fst).Nodup) ∧
    (∀ (syms : List String) (p : String × Nat),
       p ∈ sortCounts (countsOf syms) → p.2 = syms.count p.1 ∧ p.1 ∈ syms) ∧
    formulaOf ["C", "H", "H", "H", "H"] = "CH4" ∧
    formulaResult (extract_cclib_data (some p7) "methane.log" "methane.log"
      "1.8" "T0") = some "CH4" ∧
    ((srcChunks (extract_cclib_data (some p7) "methane.log" "methane.log"
        "1.8" "T0")).filter (fun c => hasSub c "a cheminf:Atom")).length = 5 ∧
    ((srcChunks (extract_cclib_data (some p7) "methane.log" "methane.log"
        "1.8" "T0")).filter
      (fun c => hasSub c "cheminf:hasAtomicNumber")).length = 5 ∧
    ((srcChunks (extract_cclib_data (some p7) "methane.log" "methane.log"
        "1.8" "T0")).filter
      (fun c => hasSub c "cheminf:hasXCoordinate")).length = 5 ∧
    ((srcChunks (extract_cclib_data (some p7) "methane.log" "methane.log"
        "1.8" "T0")).filter
      (fun c => hasSub c "cheminf:hasYCoordinate")).length = 5 ∧
    ((srcChunks (extract_cclib_data (some p7) "methane.log" "methane.log"
        "1.8" "T0")).filter
      (fun c => hasSub c "cheminf:hasZCoordinate")).length = 5 := by
  refine ⟨fun syms => sortCountsChain _, ?_, ?_, by decide, by decide,
    by decide, by decide, by decide, by decide, by decide⟩
  · intro syms
    have hperm : ((sortCounts (countsOf syms)).map Prod.fst).Perm
        ((countsOf syms).map Prod.fst) := (sortCountsPerm _).map Prod.fst
    refine hperm.nodup_iff.mpr ?_
    have hfst : ∀ L : List String,
        (L.map (fun k => (k, syms.count k))).map Prod.fst = L := by
      intro L
      induction L with
      | nil => rfl
      | cons a t ih => simp [ih]
    have hkeys : (countsOf syms).map Prod.fst = counterKeys syms :=
      hfst (counterKeys syms)
    rw [hkeys]
    exact counterKeysNodup syms
  · intro syms p hp
    have hp2 : p ∈ countsOf syms := (sortCountsPerm _).mem_iff.mp hp
    simp only [countsOf, List.mem_map] at hp2
    obtain ⟨k, hk, rfl⟩ := hp2
    exact ⟨rfl, (counterKeysMem syms k).mp hk⟩

/-- C7 (witness): the count/membership clause instantiated at the methane
symbol list and the entry `("H", 4)`. -/
theorem C7_theorem_witness :
    (("H", 4) : String × Nat).2 = ["C", "H", "H", "H", "H"].count
      (("H", 4) : String × Nat).1 ∧
    (("H", 4) : String × Nat).1 ∈ ["C", "H", "H", "H", "H"] :=
  C7_theorem.2.2.1 ["C", "H", "H", "H", "H"] ("H", 4) (by decide)

/-- C5 (witness): the amended statement instantiated at orbital energies
`[-10, -5]` with HOMO index 1 in a single channel. -/
theorem C5_amended_witness :
    homoLumoChannel "c" [[mkRat (-10) 1, mkRat (-5) 1]] 0 1 =
      ["ex:" ++ "c" ++ " ontocompchem:hasHOMOEnergy " ++
         fmtRat ((([mkRat (-10) 1, mkRat (-5) 1].get?
           ([mkRat (-10) 1, mkRat (-5) 1].length - 1))).getD (mkRat 0 1)) 6 ++ " ."] :=
  C5_amended.1 "c" [[mkRat (-10) 1, mkRat (-5) 1]] 0 1
    [mkRat (-10) 1, mkRat (-5) 1] rfl (by decide) (by decide)
